import Mathlib

/-!
# Brayns: extension plugin registry and OBJ renderer commit

A shallow embedding of

* `src/plugins/extensions/ExtensionPluginFactory.cpp`: the plugin registry
  (`_plugins`, a `std::vector` of shared plugin handles) with its operations
  `remove`, `add`, `clear`, `execute` and its constructor;
* `src/plugins/engines/ospray/render/ExtendedOBJRenderer.cpp`: `commit()`.

Plugin handles are compared the way `std::find` compares shared pointers, by
the identity of the object they designate; a handle always designates a live
plugin object (the null handle, on which `run()` has no defined behaviour, is
outside the model).  The `run()` of a plugin acts on a world state (scene,
camera) that is separate from the factory itself, and either returns or
raises an exception.
-/

namespace brayns

universe u v t

/-! ## ExtensionPluginFactory -/

/-- The factory's mutable state: the vector `_plugins`, in order. -/
structure ExtensionPluginFactory (α : Type u) where
  plugins : List α
  deriving DecidableEq, Repr

namespace ExtensionPluginFactory

variable {α : Type u} [DecidableEq α]

/-- The call `std::find( begin, end, plugin )` as an offset from `begin`: the
position of the first element equal to `plugin`, or the length of the
vector (the `end` iterator) when there is none. -/
def find : List α → α → Nat
  | [], _ => 0
  | x :: xs, plugin => if x = plugin then 0 else find xs plugin + 1

/-- The body of `ExtensionPluginFactory::remove`: look the handle up and, when
the iterator is not `end`, erase the element it points at. -/
def remove (f : ExtensionPluginFactory α) (plugin : α) : ExtensionPluginFactory α :=
  let it := find f.plugins plugin
  if it ≠ f.plugins.length then
    { f with plugins := f.plugins.eraseIdx it }
  else
    f

/-- The body of `ExtensionPluginFactory::add`: `remove( plugin )` followed by
`_plugins.push_back( plugin )`. -/
def add (f : ExtensionPluginFactory α) (plugin : α) : ExtensionPluginFactory α :=
  let f1 := f.remove plugin
  { f1 with plugins := f1.plugins ++ [plugin] }

end ExtensionPluginFactory

/-- The body of `ExtensionPluginFactory::clear`: `_plugins.clear()`. -/
def ExtensionPluginFactory.clear {α : Type u} (f : ExtensionPluginFactory α) :
    ExtensionPluginFactory α :=
  { f with plugins := [] }

/-- What one `execute()` leaves behind: the factory, the world the plugins
acted on, the sequence of `run()` calls that were made, oldest first, and
the exception `execute()` left with (`none` when it returned). -/
structure Executed (α : Type u) (σ : Type v) (ε : Type t) where
  factory : ExtensionPluginFactory α
  world : σ
  calls : List α
  raised : Option ε

namespace ExtensionPluginFactory

variable {α : Type u} {σ : Type v} {ε : Type t}

/-- The range-based loop of `execute`, from the current iterator position
(the remaining elements) to `end`.  Each step calls `run()` on the element
and records the call; `run plugin w` is the world that call leaves behind
together with the exception it raised, if any.  The loop has no `try`
block: a `run()` that raises ends it, the remaining elements uncalled. -/
def executeLoop (run : α → σ → σ × Option ε) : List α → σ → List α → σ × List α × Option ε
  | [], w, calls => (w, calls, none)
  | plugin :: rest, w, calls =>
    match run plugin w with
    | (w1, none) => executeLoop run rest w1 (calls ++ [plugin])
    | (w1, some e) => (w1, calls ++ [plugin], some e)

/-- The body of `ExtensionPluginFactory::execute`: the loop over `_plugins`,
from `begin`.  Nothing is assigned to `_plugins`, on either exit. -/
def execute (run : α → σ → σ × Option ε) (f : ExtensionPluginFactory α) (w : σ) :
    Executed α σ ε :=
  let r := executeLoop run f.plugins w []
  { factory := f, world := r.1, calls := r.2.1, raised := r.2.2 }

/-- The constructor `ExtensionPluginFactory::ExtensionPluginFactory` (the
name `mk` being taken by the structure).  `useZeroEQ` and `useDeflect` stand
for the build flags `BRAYNS_USE_ZEROEQ` and `BRAYNS_USE_DEFLECT`;
`newZeroEQ` and `newDeflect` are the outcomes of the two plugin
constructors, were they invoked (`error` is a raised exception).  The result is `error` when the factory constructor raises. -/
def ctor {ε : Type v} [DecidableEq α] (useZeroEQ useDeflect : Bool)
    (newZeroEQ newDeflect : Except ε α) : Except ε (ExtensionPluginFactory α) :=
  let f0 : ExtensionPluginFactory α := { plugins := [] }
  -- under BRAYNS_USE_ZEROEQ: new ZeroEQPlugin( ... ); add( zeroEQPlugin );
  let afterZeroEQ : Except ε (ExtensionPluginFactory α) :=
    if useZeroEQ then
      match newZeroEQ with
      | Except.ok zeroEQPlugin => Except.ok (f0.add zeroEQPlugin)
      | Except.error e => Except.error e
    else
      Except.ok f0
  match afterZeroEQ with
  | Except.error e => Except.error e
  | Except.ok f1 =>
    -- under BRAYNS_USE_DEFLECT: try add( make_shared<DeflectPlugin>( ... )) catch( ... )
    if useDeflect then
      match newDeflect with
      | Except.ok deflectPlugin => Except.ok (f1.add deflectPlugin)
      | Except.error _ => Except.ok f1
    else
      Except.ok f1

end ExtensionPluginFactory

/-- The registries a factory can be in: the empty one the constructor starts
from, and whatever `add`, `remove`, `clear` and `execute` lead to. -/
inductive Reachable {α : Type u} [DecidableEq α] : ExtensionPluginFactory α → Prop
  | empty : Reachable { plugins := [] }
  | add {f : ExtensionPluginFactory α} (plugin : α) :
      Reachable f → Reachable (f.add plugin)
  | remove {f : ExtensionPluginFactory α} (plugin : α) :
      Reachable f → Reachable (f.remove plugin)
  | clear {f : ExtensionPluginFactory α} : Reachable f → Reachable f.clear
  | execute {σ ε : Type} {f : ExtensionPluginFactory α} (run : α → σ → σ × Option ε) (w : σ) :
      Reachable f → Reachable (f.execute run w).factory

/-- A `run()` that appends the plugin's handle to a journal (the world), and
raises, with the handle as the exception, on the plugin `bad`. -/
def sampleRun (bad : Nat) : Nat → List Nat → List Nat × Option Nat :=
  fun q s => (s ++ [q], if q = bad then some q else none)

/-! ## ExtendedOBJRenderer -/

/-- The parameter accessors `commit()` reads through, inherited from the
rendering library: `getParamData` yields the data array registered under a
name (`none` for the null pointer), the others yield the value registered
under a name or else the given default.  Floats are values of `F`, which
`commit()` only copies. -/
structure Params (F : Type) (Obj : Type) where
  getParamData : String → Option (List Obj)
  getParam1i : String → Int → Int
  getParam1f : String → F → F
  getParam3f : String → F × F × F → F × F × F

/-- The fields of an `ExtendedOBJRenderer` object: `renderer` is the part
owned by the base class, `ispcEquivalent` the backend handle `getIE()`
returns, the others are the members `commit()` assigns. -/
structure ExtendedOBJRenderer (B : Type) (F : Type) (Obj : Type) (H : Type) where
  renderer : B
  ispcEquivalent : H
  lightData : Option (List Obj)
  lightArray : List H
  materialData : Option (List Obj)
  materialArray : List H
  shadowsEnabled : Bool
  softShadowsEnabled : Bool
  ambientOcclusionStrength : F
  shadingEnabled : Bool
  randomNumber : Int
  moving : Bool
  timestamp : F
  spp : Int
  electronShadingEnabled : Bool

/-- The arguments of one call of `ispc::ExtendedOBJRenderer_set`.  A pointer
into an array is `none` when null and otherwise the array it addresses. -/
structure SetArgs (F : Type) (H : Type) where
  self : H
  bgColor : F × F × F
  shadowsEnabled : Bool
  softShadowsEnabled : Bool
  ambientOcclusionStrength : F
  shadingEnabled : Bool
  randomNumber : Int
  moving : Bool
  timestamp : F
  spp : Int
  electronShadingEnabled : Bool
  lightArrayPtr : Option (List H)
  numLights : Nat
  materialArrayPtr : Option (List H)
  numMaterials : Nat

namespace ExtendedOBJRenderer

variable {B F Obj H : Type}

/-- The loop `for( size_t i = k; i < data->size( ); ++i )
array.push_back( data[ i ]->getIE( ))`, from index `i` on. -/
def pushBackLoop (getIE : Obj → H) (data : List Obj) (i : Nat) (array : List H) : List H :=
  if h : i < data.length then
    pushBackLoop getIE data (i + 1) (array ++ [getIE data[i]])
  else
    array
termination_by data.length - i

/-- The expression `array.empty( ) ? nullptr : &array[0]`. -/
def arrayPtr (array : List H) : Option (List H) :=
  if array.isEmpty then none else some array

/-- The conversion `bool( int )`. -/
def toBool (i : Int) : Bool := decide (i ≠ 0)

/-- The body of `ExtendedOBJRenderer::commit`, statement by statement.
`Renderer_commit` is the base class's `Renderer::commit()`, acting on the
base part of the object; `getIE` is the backend handle of a light or a
material.  The result is the object after the call together with the
arguments handed to `ispc::ExtendedOBJRenderer_set`. -/
def commit [Zero F] [One F] (Renderer_commit : Params F Obj → B → B) (getIE : Obj → H)
    (params : Params F Obj) (self : ExtendedOBJRenderer B F Obj H) :
    ExtendedOBJRenderer B F Obj H × SetArgs F H :=
  let self := { self with renderer := Renderer_commit params self.renderer }
  let self := { self with lightData := params.getParamData "lights" }
  let self := { self with lightArray := [] }
  let self :=
    match self.lightData with
    | some data => { self with lightArray := pushBackLoop getIE data 0 self.lightArray }
    | none => self
  let lightArrayPtr := arrayPtr self.lightArray
  let bgColor := params.getParam3f "bgColor" (1, 1, 1)
  let self := { self with shadowsEnabled := toBool (params.getParam1i "shadowsEnabled" 1) }
  let self := { self with softShadowsEnabled := toBool (params.getParam1i "softShadowsEnabled" 1) }
  let self := { self with ambientOcclusionStrength := params.getParam1f "ambientOcclusionStrength" 0 }
  let self := { self with shadingEnabled := toBool (params.getParam1i "shadingEnabled" 1) }
  let self := { self with randomNumber := params.getParam1i "randomNumber" 0 }
  let self := { self with moving := toBool (params.getParam1i "moving" 0) }
  let self := { self with timestamp := params.getParam1f "timestamp" 0 }
  let self := { self with spp := params.getParam1i "spp" 1 }
  let self := { self with electronShadingEnabled := toBool (params.getParam1i "electronShading" 0) }
  let self := { self with materialData := params.getParamData "materials" }
  let self := { self with materialArray := [] }
  let self :=
    match self.materialData with
    | some data => { self with materialArray := pushBackLoop getIE data 0 self.materialArray }
    | none => self
  let materialArrayPtr := arrayPtr self.materialArray
  (self,
    { self := self.ispcEquivalent
      bgColor := bgColor
      shadowsEnabled := self.shadowsEnabled
      softShadowsEnabled := self.softShadowsEnabled
      ambientOcclusionStrength := self.ambientOcclusionStrength
      shadingEnabled := self.shadingEnabled
      randomNumber := self.randomNumber
      moving := self.moving
      timestamp := self.timestamp
      spp := self.spp
      electronShadingEnabled := self.electronShadingEnabled
      lightArrayPtr := lightArrayPtr
      numLights := self.lightArray.length
      materialArrayPtr := materialArrayPtr
      numMaterials := self.materialArray.length })

/-- A parameter set with three lights registered under `lights`, no
`materials` entry, and defaults everywhere else. -/
def sampleParams : Params Int Nat where
  getParamData := fun name => if name = "lights" then some [10, 20, 30] else none
  getParam1i := fun _ dflt => dflt
  getParam1f := fun _ dflt => dflt
  getParam3f := fun _ dflt => dflt

/-- A renderer whose arrays still hold entries of an earlier commit. -/
def sampleRenderer : ExtendedOBJRenderer Unit Int Nat Nat where
  renderer := ()
  ispcEquivalent := 1
  lightData := none
  lightArray := [7, 8]
  materialData := some [4]
  materialArray := [4]
  shadowsEnabled := false
  softShadowsEnabled := false
  ambientOcclusionStrength := 0
  shadingEnabled := false
  randomNumber := 0
  moving := false
  timestamp := 0
  spp := 0
  electronShadingEnabled := false

end ExtendedOBJRenderer

/-! ## Helper lemmas on the registry -/

namespace ExtensionPluginFactory

theorem executeLoop_acc {α : Type u} {σ : Type v} {ε : Type t} (run : α → σ → σ × Option ε)
    (l : List α) (w : σ) (calls : List α) :
    executeLoop run l w calls
      = ((executeLoop run l w []).1, calls ++ (executeLoop run l w []).2.1,
          (executeLoop run l w []).2.2) := by
  induction l generalizing w calls with
  | nil => simp [executeLoop]
  | cons x xs ih =>
    rcases h : run x w with ⟨w1, _ | e⟩
    · simp only [executeLoop, h]
      rw [ih w1 (calls ++ [x]), ih w1 ([] ++ [x])]
      simp
    · simp [executeLoop, h]

theorem executeLoop_cases {α : Type u} {σ : Type v} {ε : Type t} (run : α → σ → σ × Option ε)
    (l : List α) (w : σ) :
    ((executeLoop run l w []).2.2 = none ∧ (executeLoop run l w []).2.1 = l ∧
        (executeLoop run l w []).1 = l.foldl (fun s q => (run q s).1) w ∧
        ∀ before q after, l = before ++ q :: after →
          (run q (before.foldl (fun s q => (run q s).1) w)).2 = none) ∨
      (∃ e before p after, (executeLoop run l w []).2.2 = some e ∧ l = before ++ p :: after ∧
        (executeLoop run l w []).2.1 = before ++ [p] ∧
        (executeLoop run l w []).1 = (before ++ [p]).foldl (fun s q => (run q s).1) w ∧
        (run p (before.foldl (fun s q => (run q s).1) w)).2 = some e ∧
        ∀ b1 q b2, before = b1 ++ q :: b2 →
          (run q (b1.foldl (fun s q => (run q s).1) w)).2 = none) := by
  induction l generalizing w with
  | nil =>
    left
    refine ⟨rfl, rfl, rfl, ?_⟩
    intro before q after h
    simp at h
  | cons x xs ih =>
    rcases h : run x w with ⟨w1, _ | e⟩
    · have hw : (run x w).1 = w1 := by rw [h]
      have hn : (run x w).2 = none := by rw [h]
      have hl : executeLoop run (x :: xs) w []
          = ((executeLoop run xs w1 []).1, x :: (executeLoop run xs w1 []).2.1,
              (executeLoop run xs w1 []).2.2) := by
        simp only [executeLoop, h]
        rw [executeLoop_acc]
        simp
      rw [hl]
      rcases ih w1 with ⟨h1, h2, h3, h4⟩ | ⟨e, before, p, after, h1, h2, h3, h4, h5, h6⟩
      · left
        refine ⟨h1, by simp [h2], by simp [h3, hw], ?_⟩
        intro before q after hb
        cases before with
        | nil =>
          simp at hb
          rw [← hb.1]
          simpa using hn
        | cons y ys =>
          simp at hb
          rw [← hb.1]
          simpa [hw] using h4 ys q after hb.2
      · right
        refine ⟨e, x :: before, p, after, h1, by simp [h2], by simp [h3], by simp [h4, hw],
          by simpa [hw] using h5, ?_⟩
        intro b1 q b2 hb
        cases b1 with
        | nil =>
          simp at hb
          rw [← hb.1]
          simpa using hn
        | cons y ys =>
          simp at hb
          rw [← hb.1]
          simpa [hw] using h6 ys q b2 hb.2
    · right
      refine ⟨e, [], x, xs, by simp [executeLoop, h], rfl, by simp [executeLoop, h],
        by simp [executeLoop, h], by simp [h], ?_⟩
      intro b1 q b2 hb
      simp at hb

theorem execute_world {α : Type u} {σ : Type v} {ε : Type t} (run : α → σ → σ × Option ε)
    (f : ExtensionPluginFactory α) (w : σ) :
    (f.execute run w).world = (f.execute run w).calls.foldl (fun s q => (run q s).1) w := by
  show (executeLoop run f.plugins w []).1
    = (executeLoop run f.plugins w []).2.1.foldl (fun s q => (run q s).1) w
  rcases executeLoop_cases run f.plugins w with ⟨_, h2, h3, _⟩ | ⟨e, b, p, a, _, _, h3, h4, _, _⟩
  · rw [h3, h2]
  · rw [h4, h3]

theorem execute_cases {α : Type u} {σ : Type v} {ε : Type t} (run : α → σ → σ × Option ε)
    (f : ExtensionPluginFactory α) (w : σ) :
    ((f.execute run w).raised = none ∧ (f.execute run w).calls = f.plugins ∧
        ∀ before q after, f.plugins = before ++ q :: after →
          (run q (before.foldl (fun s q => (run q s).1) w)).2 = none) ∨
      (∃ e before p after, (f.execute run w).raised = some e ∧
        f.plugins = before ++ p :: after ∧ (f.execute run w).calls = before ++ [p] ∧
        (run p (before.foldl (fun s q => (run q s).1) w)).2 = some e ∧
        ∀ b1 q b2, before = b1 ++ q :: b2 →
          (run q (b1.foldl (fun s q => (run q s).1) w)).2 = none) := by
  rcases executeLoop_cases run f.plugins w with ⟨h1, h2, _, h4⟩ | ⟨e, b, p, a, h1, h2, h3, _, h5, h6⟩
  · exact Or.inl ⟨h1, h2, h4⟩
  · exact Or.inr ⟨e, b, p, a, h1, h2, h3, h5, h6⟩

end ExtensionPluginFactory

namespace ExtensionPluginFactory

variable {α : Type u} [DecidableEq α]

theorem find_le_length (l : List α) (p : α) : find l p ≤ l.length := by
  induction l with
  | nil => simp [find]
  | cons x xs ih =>
    by_cases h : x = p
    · simp [find, h]
    · simp [find, h, ih]

theorem find_eq_length_iff (l : List α) (p : α) : find l p = l.length ↔ p ∉ l := by
  induction l with
  | nil => simp [find]
  | cons x xs ih =>
    by_cases h : x = p
    · subst h; simp [find]
    · have h2 : ¬ p = x := fun e => h e.symm
      simp [find, h, h2, ih]

theorem eraseIdx_find (l : List α) (p : α) : l.eraseIdx (find l p) = l.erase p := by
  induction l with
  | nil => simp [find]
  | cons x xs ih =>
    by_cases h : x = p
    · subst h; simp [find]
    · have hb : (x == p) = false := by simpa using h
      simp [find, h, List.erase_cons, hb, ih]

theorem remove_plugins (f : ExtensionPluginFactory α) (p : α) :
    (f.remove p).plugins = f.plugins.erase p := by
  unfold remove
  by_cases h : find f.plugins p = f.plugins.length
  · have hp : p ∉ f.plugins := (find_eq_length_iff _ _).1 h
    simp [h, List.erase_of_not_mem hp]
  · simp [h, eraseIdx_find]

theorem add_plugins (f : ExtensionPluginFactory α) (p : α) :
    (f.add p).plugins = f.plugins.erase p ++ [p] := by
  simp [add, remove_plugins]

theorem remove_length_le (f : ExtensionPluginFactory α) (p : α) :
    (f.remove p).plugins.length ≤ f.plugins.length := by
  rw [remove_plugins]
  exact (List.erase_sublist p f.plugins).length_le

theorem nodup_remove (f : ExtensionPluginFactory α) (p : α) (h : f.plugins.Nodup) :
    (f.remove p).plugins.Nodup := by
  rw [remove_plugins]
  exact h.erase p

theorem nodup_add (f : ExtensionPluginFactory α) (p : α) (h : f.plugins.Nodup) :
    (f.add p).plugins.Nodup := by
  rw [add_plugins]
  refine List.Nodup.append (h.erase p) (List.nodup_singleton p) ?_
  intro x hx hp
  have hxp : x = p := by simpa using hp
  subst hxp
  exact (h.not_mem_erase) hx

theorem nodup_of_reachable {f : ExtensionPluginFactory α} (h : Reachable f) :
    f.plugins.Nodup := by
  induction h with
  | empty => exact List.nodup_nil
  | add p _ ih => exact nodup_add _ p ih
  | remove p _ ih => exact nodup_remove _ p ih
  | clear _ _ => exact List.nodup_nil
  | execute run w _ ih => exact ih

end ExtensionPluginFactory

/-! ## Helper lemmas on the renderer -/

namespace ExtendedOBJRenderer

variable {B F Obj H : Type}

theorem pushBackLoop_eq (getIE : Obj → H) (data : List Obj) (i : Nat) (array : List H) :
    pushBackLoop getIE data i array = array ++ (data.drop i).map getIE := by
  generalize hk : data.length - i = k
  induction k generalizing i array with
  | zero =>
    have hi : data.length ≤ i := by omega
    rw [pushBackLoop]
    simp [Nat.not_lt.2 hi, List.drop_eq_nil_of_le hi]
  | succ k ih =>
    have hi : i < data.length := by omega
    rw [pushBackLoop]
    simp only [hi, dite_true]
    rw [ih (i + 1) _ (by omega)]
    rw [List.drop_eq_getElem_cons hi]
    simp only [List.map_cons, List.append_assoc, List.singleton_append]

theorem pushBackLoop_zero (getIE : Obj → H) (data : List Obj) :
    pushBackLoop getIE data 0 [] = data.map getIE := by
  simp [pushBackLoop_eq]

theorem commit_lightArray [Zero F] [One F] (Renderer_commit : Params F Obj → B → B)
    (getIE : Obj → H) (params : Params F Obj) (self : ExtendedOBJRenderer B F Obj H) :
    (commit Renderer_commit getIE params self).1.lightArray
      = ((params.getParamData "lights").getD []).map getIE := by
  cases hl : params.getParamData "lights" <;> cases hm : params.getParamData "materials" <;>
    simp [commit, hl, hm, pushBackLoop_zero]

theorem commit_materialArray [Zero F] [One F] (Renderer_commit : Params F Obj → B → B)
    (getIE : Obj → H) (params : Params F Obj) (self : ExtendedOBJRenderer B F Obj H) :
    (commit Renderer_commit getIE params self).1.materialArray
      = ((params.getParamData "materials").getD []).map getIE := by
  cases hl : params.getParamData "lights" <;> cases hm : params.getParamData "materials" <;>
    simp [commit, hl, hm, pushBackLoop_zero]

theorem commit_args [Zero F] [One F] (Renderer_commit : Params F Obj → B → B)
    (getIE : Obj → H) (params : Params F Obj) (self : ExtendedOBJRenderer B F Obj H) :
    (commit Renderer_commit getIE params self).2 =
      { self := self.ispcEquivalent
        bgColor := params.getParam3f "bgColor" (1, 1, 1)
        shadowsEnabled := toBool (params.getParam1i "shadowsEnabled" 1)
        softShadowsEnabled := toBool (params.getParam1i "softShadowsEnabled" 1)
        ambientOcclusionStrength := params.getParam1f "ambientOcclusionStrength" 0
        shadingEnabled := toBool (params.getParam1i "shadingEnabled" 1)
        randomNumber := params.getParam1i "randomNumber" 0
        moving := toBool (params.getParam1i "moving" 0)
        timestamp := params.getParam1f "timestamp" 0
        spp := params.getParam1i "spp" 1
        electronShadingEnabled := toBool (params.getParam1i "electronShading" 0)
        lightArrayPtr := arrayPtr (((params.getParamData "lights").getD []).map getIE)
        numLights := ((params.getParamData "lights").getD []).length
        materialArrayPtr := arrayPtr (((params.getParamData "materials").getD []).map getIE)
        numMaterials := ((params.getParamData "materials").getD []).length } := by
  cases hl : params.getParamData "lights" <;> cases hm : params.getParamData "materials" <;>
    simp [commit, hl, hm, pushBackLoop_zero]

theorem commit_ispcEquivalent [Zero F] [One F] (Renderer_commit : Params F Obj → B → B)
    (getIE : Obj → H) (params : Params F Obj) (self : ExtendedOBJRenderer B F Obj H) :
    (commit Renderer_commit getIE params self).1.ispcEquivalent = self.ispcEquivalent := by
  cases hl : params.getParamData "lights" <;> cases hm : params.getParamData "materials" <;>
    simp [commit, hl, hm]

theorem commit_scalars [Zero F] [One F] (Renderer_commit : Params F Obj → B → B)
    (getIE : Obj → H) (params : Params F Obj) (self : ExtendedOBJRenderer B F Obj H) :
    (commit Renderer_commit getIE params self).1.shadowsEnabled
        = toBool (params.getParam1i "shadowsEnabled" 1) ∧
      (commit Renderer_commit getIE params self).1.softShadowsEnabled
        = toBool (params.getParam1i "softShadowsEnabled" 1) ∧
      (commit Renderer_commit getIE params self).1.ambientOcclusionStrength
        = params.getParam1f "ambientOcclusionStrength" 0 ∧
      (commit Renderer_commit getIE params self).1.shadingEnabled
        = toBool (params.getParam1i "shadingEnabled" 1) ∧
      (commit Renderer_commit getIE params self).1.randomNumber
        = params.getParam1i "randomNumber" 0 ∧
      (commit Renderer_commit getIE params self).1.moving
        = toBool (params.getParam1i "moving" 0) ∧
      (commit Renderer_commit getIE params self).1.timestamp
        = params.getParam1f "timestamp" 0 ∧
      (commit Renderer_commit getIE params self).1.spp = params.getParam1i "spp" 1 ∧
      (commit Renderer_commit getIE params self).1.electronShadingEnabled
        = toBool (params.getParam1i "electronShading" 0) := by
  cases hl : params.getParamData "lights" <;> cases hm : params.getParamData "materials" <;>
    simp [commit, hl, hm]

end ExtendedOBJRenderer

/-! ## The registry: add, remove, execute -/

namespace ExtensionPluginFactory

/-- C2: the plugin list has no duplicate handles in the empty registry the
constructor starts from; `add`, `remove`, `clear` and `execute` each keep it
so; hence it has none in any reachable state of the factory. -/
theorem no_duplicate_handles {α : Type u} [DecidableEq α] :
    ({ plugins := [] } : ExtensionPluginFactory α).plugins.Nodup ∧
      (∀ (f : ExtensionPluginFactory α) (p : α), f.plugins.Nodup → (f.add p).plugins.Nodup) ∧
      (∀ (f : ExtensionPluginFactory α) (p : α), f.plugins.Nodup → (f.remove p).plugins.Nodup) ∧
      (∀ f : ExtensionPluginFactory α, f.plugins.Nodup → f.clear.plugins.Nodup) ∧
      (∀ (σ ε : Type) (run : α → σ → σ × Option ε) (w : σ) (f : ExtensionPluginFactory α),
        f.plugins.Nodup → (f.execute run w).factory.plugins.Nodup) ∧
      (∀ f : ExtensionPluginFactory α, Reachable f → f.plugins.Nodup) :=
  ⟨List.nodup_nil, fun f p h => nodup_add f p h, fun f p h => nodup_remove f p h,
    fun _ _ => List.nodup_nil, fun _ _ _ _ _ h => h, fun _ h => nodup_of_reachable h⟩

/-- Witness of C2: the steps from the duplicate-free registry `[1, 2, 3]`
(the `execute()` being one in which plugin `2` raises), and the registry
reached by `add 1`, `add 2`, `add 1`, `remove 2`. -/
theorem no_duplicate_handles_witness :
    (({ plugins := [1, 2, 3] } : ExtensionPluginFactory Nat).add 2).plugins.Nodup ∧
      (({ plugins := [1, 2, 3] } : ExtensionPluginFactory Nat).remove 2).plugins.Nodup ∧
      ({ plugins := [1, 2, 3] } : ExtensionPluginFactory Nat).clear.plugins.Nodup ∧
      (({ plugins := [1, 2, 3] } : ExtensionPluginFactory Nat).execute
        (sampleRun 2) []).factory.plugins.Nodup ∧
      ((((({ plugins := [] } : ExtensionPluginFactory Nat).add 1).add 2).add 1).remove
        2).plugins.Nodup :=
  ⟨no_duplicate_handles.2.1 { plugins := [1, 2, 3] } 2 (by decide),
    no_duplicate_handles.2.2.1 { plugins := [1, 2, 3] } 2 (by decide),
    no_duplicate_handles.2.2.2.1 { plugins := [1, 2, 3] } (by decide),
    no_duplicate_handles.2.2.2.2.1 (List Nat) Nat (sampleRun 2) []
      { plugins := [1, 2, 3] } (by decide),
    no_duplicate_handles.2.2.2.2.2 _
      (Reachable.remove 2 (Reachable.add 1 (Reachable.add 2 (Reachable.add 1 Reachable.empty))))⟩

/-- C3, as stated, fails: on the registry `[1, 2, 3]`, when `run()` of plugin
`2` raises, `execute()` leaves with that exception after the calls `1, 2`;
`run()` is never called on plugin `3`. -/
theorem execute_stops_at_raise :
    (({ plugins := [1, 2, 3] } : ExtensionPluginFactory Nat).execute (sampleRun 2) []).calls
        = [1, 2] ∧
      (({ plugins := [1, 2, 3] } : ExtensionPluginFactory Nat).execute (sampleRun 2) []).raised
        = some 2 ∧
      ¬ (({ plugins := [1, 2, 3] } : ExtensionPluginFactory Nat).execute (sampleRun 2) []).calls
        = ({ plugins := [1, 2, 3] } : ExtensionPluginFactory Nat).plugins :=
  ⟨by decide, by decide, by decide⟩

/-- C3, amended: `execute()` calls `run()` on the registered plugins in
registration order, each once, up to and including the first whose `run()`
raises.  The world is the result of applying `run()` to the plugins called,
in that order.  Either `execute()` returns, no `run()` having raised, and
the calls are exactly the registry `p1, ..., pn` (no call for the empty
registry); or the first raising plugin is `pk`, the calls are exactly
`p1, ..., pk`, and `execute()` leaves with the exception `pk` raised.  When
no `run()` raises, the first is the case.  The registry is the same after
`execute()` as before, on either exit. -/
theorem execute_runs_until_raise {α : Type u} {σ : Type v} {ε : Type t}
    (run : α → σ → σ × Option ε) (f : ExtensionPluginFactory α) (w : σ) :
    (f.execute run w).factory = f ∧
      (f.execute run w).world = (f.execute run w).calls.foldl (fun s q => (run q s).1) w ∧
      (((f.execute run w).raised = none ∧ (f.execute run w).calls = f.plugins ∧
          ∀ before q after, f.plugins = before ++ q :: after →
            (run q (before.foldl (fun s q => (run q s).1) w)).2 = none) ∨
        (∃ e before p after, (f.execute run w).raised = some e ∧
          f.plugins = before ++ p :: after ∧ (f.execute run w).calls = before ++ [p] ∧
          (run p (before.foldl (fun s q => (run q s).1) w)).2 = some e ∧
          ∀ b1 q b2, before = b1 ++ q :: b2 →
            (run q (b1.foldl (fun s q => (run q s).1) w)).2 = none)) ∧
      ((∀ q ∈ f.plugins, ∀ s, (run q s).2 = none) →
        (f.execute run w).raised = none ∧ (f.execute run w).calls = f.plugins ∧
          (f.execute run w).world = f.plugins.foldl (fun s q => (run q s).1) w) ∧
      (({ plugins := [] } : ExtensionPluginFactory α).execute run w).calls = [] ∧
      (({ plugins := [] } : ExtensionPluginFactory α).execute run w).raised = none := by
  refine ⟨rfl, execute_world run f w, execute_cases run f w, ?_, rfl, rfl⟩
  intro hno
  rcases execute_cases run f w with ⟨h1, h2, _⟩ | ⟨e, before, p, after, _, h2, _, h5, _⟩
  · refine ⟨h1, h2, ?_⟩
    rw [execute_world, h2]
  · rw [hno p (by simp [h2])] at h5
    cases h5

/-- Witness of C3 amended: on `[1, 2, 3]` with a `run()` that raises on none
of them, the calls are `1, 2, 3` and the journal records them in order. -/
theorem execute_runs_until_raise_witness :
    (({ plugins := [1, 2, 3] } : ExtensionPluginFactory Nat).execute (sampleRun 9) []).raised
        = none ∧
      (({ plugins := [1, 2, 3] } : ExtensionPluginFactory Nat).execute (sampleRun 9) []).calls
        = ({ plugins := [1, 2, 3] } : ExtensionPluginFactory Nat).plugins ∧
      (({ plugins := [1, 2, 3] } : ExtensionPluginFactory Nat).execute (sampleRun 9) []).world
        = ({ plugins := [1, 2, 3] } : ExtensionPluginFactory Nat).plugins.foldl
            (fun s q => (sampleRun 9 q s).1) [] :=
  (execute_runs_until_raise (sampleRun 9) { plugins := [1, 2, 3] } []).2.2.2.1
    (by
      intro q hq s
      have hq9 : q ≠ 9 := by
        rintro rfl
        exact absurd hq (by decide)
      simp [sampleRun, hq9])

/-- C4: on a duplicate-free registry `L`, `add(p)` yields `L` with `p` erased,
followed by `p` as the last element; the other plugins keep their relative
order; the length grows by one when `p` was absent and is unchanged when `p`
was registered. -/
theorem add_moves_to_end {α : Type u} [DecidableEq α] (f : ExtensionPluginFactory α) (p : α)
    (h : f.plugins.Nodup) :
    (f.add p).plugins = f.plugins.filter (fun q => decide (q ≠ p)) ++ [p] ∧
      (f.add p).plugins.getLast? = some p ∧
      (f.add p).plugins.filter (fun q => decide (q ≠ p))
        = f.plugins.filter (fun q => decide (q ≠ p)) ∧
      (p ∉ f.plugins → (f.add p).plugins.length = f.plugins.length + 1) ∧
      (p ∈ f.plugins → (f.add p).plugins.length = f.plugins.length) := by
  have he : f.plugins.erase p = f.plugins.filter (fun q => decide (q ≠ p)) := by
    rw [h.erase_eq_filter p]
    congr 1
    funext q
    by_cases hq : q = p <;> simp [hq]
  refine ⟨by rw [add_plugins, he], by simp [add_plugins], ?_, ?_, ?_⟩
  · rw [add_plugins, he]
    simp [List.filter_append]
  · intro hp
    rw [add_plugins, List.erase_of_not_mem hp]
    simp
  · intro hp
    rw [add_plugins, List.length_append, List.length_erase_of_mem hp]
    have : 0 < f.plugins.length := List.length_pos_of_mem hp
    simp
    omega

/-- Witness of C4 at `L = [1, 2, 3]` and `p = 2`. -/
theorem add_moves_to_end_witness :
    ({ plugins := [1, 2, 3] } : ExtensionPluginFactory Nat).plugins.Nodup ∧
      (({ plugins := [1, 2, 3] } : ExtensionPluginFactory Nat).add 2).plugins
        = [1, 3, 2] :=
  ⟨by decide, (add_moves_to_end { plugins := [1, 2, 3] } 2 (by decide)).1⟩

/-- C5: `remove(p)` always returns; when `p` is not registered the registry is
left unchanged, and when it is, exactly the first entry equal to `p` is
deleted: the entries before and after it stay, in order, and the length
decreases by exactly one. -/
theorem remove_first_match {α : Type u} [DecidableEq α] (f : ExtensionPluginFactory α) (p : α) :
    (p ∉ f.plugins → f.remove p = f) ∧
      (p ∈ f.plugins → ∃ before after : List α,
        f.plugins = before ++ p :: after ∧ p ∉ before ∧
          (f.remove p).plugins = before ++ after ∧
          (f.remove p).plugins.length + 1 = f.plugins.length) := by
  constructor
  · intro hp
    have : find f.plugins p = f.plugins.length := (find_eq_length_iff _ _).2 hp
    simp [remove, this]
  · intro hp
    obtain ⟨a, b, ha, hl, he⟩ := List.exists_erase_eq hp
    refine ⟨a, b, hl, ha, by rw [remove_plugins, he], ?_⟩
    rw [remove_plugins, he, hl]
    simp
    omega

/-- Witness of C5: `3` is absent from `[1, 2]`, and `1` occurs twice in
`[1, 2, 1]`. -/
theorem remove_first_match_witness :
    (({ plugins := [1, 2] } : ExtensionPluginFactory Nat).remove 3 = { plugins := [1, 2] }) ∧
      (∃ before after : List Nat,
        ({ plugins := [1, 2, 1] } : ExtensionPluginFactory Nat).plugins = before ++ 1 :: after ∧
          1 ∉ before ∧
          (({ plugins := [1, 2, 1] } : ExtensionPluginFactory Nat).remove 1).plugins
            = before ++ after ∧
          (({ plugins := [1, 2, 1] } : ExtensionPluginFactory Nat).remove 1).plugins.length + 1
            = ({ plugins := [1, 2, 1] } : ExtensionPluginFactory Nat).plugins.length) :=
  ⟨(remove_first_match { plugins := [1, 2] } 3).1 (by decide),
    (remove_first_match { plugins := [1, 2, 1] } 1).2 (by decide)⟩

/-- C10: when `p` is not in the duplicate-free registry `L`, `add(p)` followed
by `remove(p)` restores exactly `L`; and when `L` contains `p` at most once,
`remove(p)` applied twice gives the same registry as `remove(p)` applied
once. -/
theorem add_remove_restores {α : Type u} [DecidableEq α] (f : ExtensionPluginFactory α) (p : α) :
    (f.plugins.Nodup → p ∉ f.plugins → (f.add p).remove p = f) ∧
      (f.plugins.count p ≤ 1 → (f.remove p).remove p = f.remove p) := by
  have ext : ∀ g k : ExtensionPluginFactory α, g.plugins = k.plugins → g = k := by
    intro g k e
    cases g; cases k; simpa using e
  constructor
  · intro _ hp
    apply ext
    rw [remove_plugins, add_plugins, List.erase_of_not_mem hp,
      List.erase_append_right _ hp]
    simp
  · intro hc
    apply ext
    rw [remove_plugins]
    apply List.erase_of_not_mem
    rw [remove_plugins, ← List.count_pos_iff, List.count_erase_self]
    omega

/-- Witness of C10: `3` is not in `[1, 2]`, and `2` occurs once in `[1, 2, 3]`. -/
theorem add_remove_restores_witness :
    ((({ plugins := [1, 2] } : ExtensionPluginFactory Nat).add 3).remove 3
        = { plugins := [1, 2] }) ∧
      ((({ plugins := [1, 2, 3] } : ExtensionPluginFactory Nat).remove 2).remove 2
        = ({ plugins := [1, 2, 3] } : ExtensionPluginFactory Nat).remove 2) :=
  ⟨(add_remove_restores { plugins := [1, 2] } 3).1 (by decide) (by decide),
    (add_remove_restores { plugins := [1, 2, 3] } 2).2 (by decide)⟩

end ExtensionPluginFactory

/-! ## The factory constructor -/

namespace ExtensionPluginFactory

/-- C6, as stated, fails: with ZeroEQ and Deflect enabled, a ZeroEQ constructor
that raises `0` makes the factory constructor raise `0`, although the Deflect
constructor succeeds with the handle `7`; no factory is built. -/
theorem zeroEQ_failure_propagates :
    ctor true true (Except.error 0 : Except Nat Nat) (Except.ok 7) = Except.error 0 ∧
      ¬ ∃ f : ExtensionPluginFactory Nat,
        ctor true true (Except.error 0 : Except Nat Nat) (Except.ok 7) = Except.ok f := by
  constructor
  · rfl
  · rintro ⟨f, hf⟩
    exact absurd hf (by simp [ctor])

/-- C6, amended: when the Deflect constructor raises and the ZeroEQ plugin was
built (or ZeroEQ is disabled), the factory constructor completes; the
registry then holds the ZeroEQ plugin when there is one, and nothing else.
A ZeroEQ constructor that raises is not caught: the factory constructor
raises the same exception. -/
theorem deflect_failure_tolerated {α : Type u} [DecidableEq α] {ε : Type v}
    (useZeroEQ : Bool) (newZeroEQ : Except ε α) (e : ε) :
    ((useZeroEQ = true → ∃ z, newZeroEQ = Except.ok z) →
      ∃ f : ExtensionPluginFactory α,
        ctor useZeroEQ true newZeroEQ (Except.error e) = Except.ok f ∧
          (∀ z, useZeroEQ = true → newZeroEQ = Except.ok z → z ∈ f.plugins) ∧
          (∀ q, q ∈ f.plugins → useZeroEQ = true ∧ newZeroEQ = Except.ok q)) ∧
      (∀ (useDeflect : Bool) (newDeflect : Except ε α),
        ctor true useDeflect (Except.error e) newDeflect = Except.error e) := by
  constructor
  · intro hz
    cases useZeroEQ with
    | false => exact ⟨{ plugins := [] }, by simp [ctor], by simp, by simp⟩
    | true =>
      obtain ⟨z, rfl⟩ := hz rfl
      refine ⟨{ plugins := [z] }, by simp [ctor, add, remove, find], ?_, ?_⟩
      · intro y _ hy
        cases hy
        simp
      · intro q hq
        have : q = z := by simpa using hq
        subst this
        exact ⟨rfl, rfl⟩
  · intro ud nd
    simp [ctor]

/-- Witness of C6 amended: ZeroEQ is built with handle `5`, Deflect raises `0`. -/
theorem deflect_failure_tolerated_witness :
    ∃ f : ExtensionPluginFactory Nat,
      ctor true true (Except.ok 5 : Except Nat Nat) (Except.error 0) = Except.ok f ∧
        (∀ z, true = true → (Except.ok 5 : Except Nat Nat) = Except.ok z → z ∈ f.plugins) ∧
        (∀ q, q ∈ f.plugins → true = true ∧ (Except.ok 5 : Except Nat Nat) = Except.ok q) :=
  (deflect_failure_tolerated true (Except.ok 5 : Except Nat Nat) 0).1 (fun _ => ⟨5, rfl⟩)

/-- C8: with Deflect enabled, a Deflect constructor that raises leaves the
factory constructor completing with the registry as it was before the
attempt (the ZeroEQ plugin alone when ZeroEQ is enabled and was built, empty
when ZeroEQ is disabled); a Deflect constructor that succeeds makes the
Deflect plugin the last entry, after the ZeroEQ plugin when present. -/
theorem deflect_attempt {α : Type u} [DecidableEq α] {ε : Type v} :
    (∀ (newZeroEQ : Except ε α) (e : ε),
        ctor false true newZeroEQ (Except.error e) = Except.ok { plugins := [] }) ∧
      (∀ (z : α) (e : ε),
        ctor true true (Except.ok z) (Except.error e) = Except.ok { plugins := [z] }) ∧
      (∀ (newZeroEQ : Except ε α) (d : α),
        ctor false true newZeroEQ (Except.ok d) = Except.ok { plugins := [d] }) ∧
      (∀ z d : α, z ≠ d →
        ctor true true (Except.ok z : Except ε α) (Except.ok d) = Except.ok { plugins := [z, d] }) ∧
      (∀ z d : α, ∃ f : ExtensionPluginFactory α,
        ctor true true (Except.ok z : Except ε α) (Except.ok d) = Except.ok f ∧
          f.plugins.getLast? = some d) := by
  refine ⟨?_, ?_, ?_, ?_, ?_⟩
  · intro nz e
    simp [ctor]
  · intro z e
    simp [ctor, add, remove, find]
  · intro nz d
    simp [ctor, add, remove, find]
  · intro z d hzd
    simp [ctor, add, remove, find, hzd]
  · intro z d
    refine ⟨(({ plugins := [] } : ExtensionPluginFactory α).add z).add d, by simp [ctor], ?_⟩
    simp [add_plugins]

/-- Witness of C8: the ZeroEQ plugin is `5`, the Deflect plugin is `7`. -/
theorem deflect_attempt_witness :
    ctor true true (Except.ok 5 : Except Nat Nat) (Except.ok 7)
      = Except.ok { plugins := [5, 7] } :=
  deflect_attempt.2.2.2.1 5 7 (by decide)

end ExtensionPluginFactory

/-! ## The renderer: commit -/

namespace ExtendedOBJRenderer

/-- C7: whatever `lightArray` held before, after `commit()` with a `lights`
parameter of `n` lights the array has length `n` and its `i`-th entry is the
backend handle of the `i`-th light, and the backend is given the count `n`;
with the parameter absent or empty the array is empty and the backend gets
the null pointer and the count `0`.  The same holds for `materials` and
`materialArray`. -/
theorem commit_arrays_in_order {B F Obj H : Type} [Zero F] [One F]
    (R : Params F Obj → B → B) (getIE : Obj → H) (ps : Params F Obj)
    (s : ExtendedOBJRenderer B F Obj H) :
    (∀ lights : List Obj, ps.getParamData "lights" = some lights →
        (commit R getIE ps s).1.lightArray.length = lights.length ∧
        (∀ (i : Nat) (h : i < lights.length),
          (commit R getIE ps s).1.lightArray[i]? = some (getIE lights[i])) ∧
        (commit R getIE ps s).2.numLights = lights.length) ∧
      (ps.getParamData "lights" = none ∨ ps.getParamData "lights" = some [] →
        (commit R getIE ps s).1.lightArray = [] ∧
        (commit R getIE ps s).2.lightArrayPtr = none ∧
        (commit R getIE ps s).2.numLights = 0) ∧
      (∀ materials : List Obj, ps.getParamData "materials" = some materials →
        (commit R getIE ps s).1.materialArray.length = materials.length ∧
        (∀ (i : Nat) (h : i < materials.length),
          (commit R getIE ps s).1.materialArray[i]? = some (getIE materials[i])) ∧
        (commit R getIE ps s).2.numMaterials = materials.length) ∧
      (ps.getParamData "materials" = none ∨ ps.getParamData "materials" = some [] →
        (commit R getIE ps s).1.materialArray = [] ∧
        (commit R getIE ps s).2.materialArrayPtr = none ∧
        (commit R getIE ps s).2.numMaterials = 0) := by
  refine ⟨?_, ?_, ?_, ?_⟩
  · intro lights hl
    rw [commit_lightArray, commit_args, hl]
    refine ⟨by simp, ?_, by simp⟩
    intro i h
    simp [List.getElem?_map, List.getElem?_eq_getElem h]
  · intro hl
    rw [commit_lightArray, commit_args]
    rcases hl with hl | hl <;> simp [hl, arrayPtr]
  · intro materials hm
    rw [commit_materialArray, commit_args, hm]
    refine ⟨by simp, ?_, by simp⟩
    intro i h
    simp [List.getElem?_map, List.getElem?_eq_getElem h]
  · intro hm
    rw [commit_materialArray, commit_args]
    rcases hm with hm | hm <;> simp [hm, arrayPtr]

/-- Witness of C7: three lights and no materials, committed on a renderer
whose arrays were not empty. -/
theorem commit_arrays_in_order_witness :
    ((commit (fun _ b => b) (fun o => o + 100) sampleParams sampleRenderer).1.lightArray.length
          = [10, 20, 30].length ∧
        (∀ (i : Nat) (h : i < [10, 20, 30].length),
          (commit (fun _ b => b) (fun o => o + 100) sampleParams sampleRenderer).1.lightArray[i]?
            = some ([10, 20, 30][i] + 100)) ∧
        (commit (fun _ b => b) (fun o => o + 100) sampleParams sampleRenderer).2.numLights
          = [10, 20, 30].length) ∧
      ((commit (fun _ b => b) (fun o => o + 100) sampleParams sampleRenderer).1.materialArray = [] ∧
        (commit (fun _ b => b) (fun o => o + 100) sampleParams sampleRenderer).2.materialArrayPtr
          = none ∧
        (commit (fun _ b => b) (fun o => o + 100) sampleParams sampleRenderer).2.numMaterials = 0) :=
  ⟨(commit_arrays_in_order (fun _ b => b) (fun o => o + 100) sampleParams sampleRenderer).1
      [10, 20, 30] (by simp [sampleParams]),
    (commit_arrays_in_order (fun _ b => b) (fun o => o + 100) sampleParams sampleRenderer).2.2.2
      (Or.inl (by simp [sampleParams]))⟩

/-- C9: with the parameter set unchanged, a second `commit()` leaves
`lightArray`, `materialArray` and every scalar field equal to their values
after the first, and hands the backend the same arguments; the arrays are
rebuilt from scratch, their lengths being those of the parameters. -/
theorem commit_idempotent {B F Obj H : Type} [Zero F] [One F]
    (R : Params F Obj → B → B) (getIE : Obj → H) (ps : Params F Obj)
    (s : ExtendedOBJRenderer B F Obj H) :
    (commit R getIE ps (commit R getIE ps s).1).1.lightArray
        = (commit R getIE ps s).1.lightArray ∧
      (commit R getIE ps (commit R getIE ps s).1).1.materialArray
        = (commit R getIE ps s).1.materialArray ∧
      (commit R getIE ps (commit R getIE ps s).1).1.shadowsEnabled
        = (commit R getIE ps s).1.shadowsEnabled ∧
      (commit R getIE ps (commit R getIE ps s).1).1.softShadowsEnabled
        = (commit R getIE ps s).1.softShadowsEnabled ∧
      (commit R getIE ps (commit R getIE ps s).1).1.ambientOcclusionStrength
        = (commit R getIE ps s).1.ambientOcclusionStrength ∧
      (commit R getIE ps (commit R getIE ps s).1).1.shadingEnabled
        = (commit R getIE ps s).1.shadingEnabled ∧
      (commit R getIE ps (commit R getIE ps s).1).1.randomNumber
        = (commit R getIE ps s).1.randomNumber ∧
      (commit R getIE ps (commit R getIE ps s).1).1.moving
        = (commit R getIE ps s).1.moving ∧
      (commit R getIE ps (commit R getIE ps s).1).1.timestamp
        = (commit R getIE ps s).1.timestamp ∧
      (commit R getIE ps (commit R getIE ps s).1).1.spp
        = (commit R getIE ps s).1.spp ∧
      (commit R getIE ps (commit R getIE ps s).1).1.electronShadingEnabled
        = (commit R getIE ps s).1.electronShadingEnabled ∧
      (commit R getIE ps (commit R getIE ps s).1).2 = (commit R getIE ps s).2 ∧
      (commit R getIE ps (commit R getIE ps s).1).1.lightArray.length
        = ((ps.getParamData "lights").getD []).length ∧
      (commit R getIE ps (commit R getIE ps s).1).1.materialArray.length
        = ((ps.getParamData "materials").getD []).length := by
  have h1 := commit_scalars R getIE ps s
  have h2 := commit_scalars R getIE ps (commit R getIE ps s).1
  obtain ⟨a1, a2, a3, a4, a5, a6, a7, a8, a9⟩ := h1
  obtain ⟨b1, b2, b3, b4, b5, b6, b7, b8, b9⟩ := h2
  refine ⟨?_, ?_, b1.trans a1.symm, b2.trans a2.symm, b3.trans a3.symm, b4.trans a4.symm,
    b5.trans a5.symm, b6.trans a6.symm, b7.trans a7.symm, b8.trans a8.symm, b9.trans a9.symm,
    ?_, ?_, ?_⟩
  · rw [commit_lightArray, commit_lightArray]
  · rw [commit_materialArray, commit_materialArray]
  · rw [commit_args, commit_args, commit_ispcEquivalent]
  · rw [commit_lightArray]; simp
  · rw [commit_materialArray]; simp

end ExtendedOBJRenderer

end brayns
